import Mathlib

/-!
Verification development for the esp32c3 data-logger pipeline
(`src/esp32c3_data_logger`).  The tasks and helper functions of the source
are shallowly embedded: `float` channel values become `Option ℚ` (with
`none` playing the role of the NaN sentinel), machine counters become `ℕ`
with explicit `% 2^w` where the source narrows a width, the FreeRTOS
queues become Lean lists, and each task's loop body becomes a pure
transition function on an explicit state.
-/

set_option maxRecDepth 4096

namespace DataLogger

/-! ### Data model (`RawReading.h`)

`RawReading` carries one timestamp and four independently-NaN-able
channel slots; `AggregatedData` carries per-channel `(avg, min, max)`
triples, again NaN-able, plus the window bounds and a `uint16_t` sample
count. -/

/-- `RawReading` from `RawReading.h`: `timestamp` is `time_t` (modelled as ℕ,
0 = invalid/unset) and the four channels are floats with NaN sentinel
(modelled as `Option ℚ`, `none` = NaN). -/
structure RawReading where
  timestamp : ℕ
  ds18b20_temp : Option ℚ
  sht40_temp : Option ℚ
  sht40_humidity : Option ℚ
  sen0193_moisture_raw : Option ℚ
  deriving Repr, DecidableEq

/-- `AggregatedData` from `RawReading.h`: window bounds, `uint16_t`
sample count, and four `(avg, min, max)` float triples (NaN = `none`). -/
structure AggregatedData where
  start_timestamp : ℕ
  end_timestamp : ℕ
  sample_count : ℕ
  ds18b20_avg : Option ℚ
  ds18b20_min : Option ℚ
  ds18b20_max : Option ℚ
  sht40_temp_avg : Option ℚ
  sht40_temp_min : Option ℚ
  sht40_temp_max : Option ℚ
  sht40_hum_avg : Option ℚ
  sht40_hum_min : Option ℚ
  sht40_hum_max : Option ℚ
  soil_moisture_avg : Option ℚ
  soil_moisture_min : Option ℚ
  soil_moisture_max : Option ℚ
  deriving Repr, DecidableEq

/-! ### `RunningStats` (`AggregationTask.cpp` lines 24-54)

The C++ accumulator initialises `minVal = INFINITY` and
`maxVal = -INFINITY`; those sentinels are modelled by `none`
(no finite rational is the sentinel, and `value < INFINITY` /
`value > -INFINITY` always hold, which is the `none` branch of
`addValue` below).  `addValue` ignores NaN inputs (`none`). -/

structure RunningStats where
  minVal : Option ℚ
  maxVal : Option ℚ
  sum : ℚ
  count : ℕ
  deriving Repr, DecidableEq

namespace RunningStats

/-- The constructor / `reset()`: `minVal = INFINITY`, `maxVal = -INFINITY`,
`sum = 0`, `count = 0`. -/
def init : RunningStats := ⟨none, none, 0, 0⟩

/-- `addValue(float value)`: skips NaN, otherwise updates min/max via the
source's `if (value < minVal) minVal = value;` comparisons (against the
infinite sentinels every finite value wins) and accumulates sum/count. -/
def addValue (s : RunningStats) (x : Option ℚ) : RunningStats :=
  match x with
  | none => s
  | some v =>
    { minVal := some (match s.minVal with
        | none => v
        | some m => if v < m then v else m)
      maxVal := some (match s.maxVal with
        | none => v
        | some m => if v > m then v else m)
      sum := s.sum + v
      count := s.count + 1 }

/-- `getMin()`: the accumulated minimum when `count > 0`, NaN otherwise. -/
def getMin (s : RunningStats) : Option ℚ :=
  if s.count > 0 then s.minVal else none

/-- `getMax()`: the accumulated maximum when `count > 0`, NaN otherwise. -/
def getMax (s : RunningStats) : Option ℚ :=
  if s.count > 0 then s.maxVal else none

/-- `getAvg()`: `sum / count` when `count > 0`, NaN otherwise. -/
def getAvg (s : RunningStats) : Option ℚ :=
  if s.count > 0 then some (s.sum / s.count) else none

end RunningStats

/-! ### One aggregation window (`aggregationTask`, lines 91-188)

Each cycle drains all queued `RawReading`s, folds them into four
accumulators while tracking `windowStartTime` (first nonzero timestamp
seen, via the `if (windowStartTime == 0)` guard) and `windowEndTime`
(the most recent timestamp), and — when at least one reading was
collected — builds an `AggregatedData` from the getters.  The drained
queue contents are the input list, in FIFO order. -/

/-- The aggregation loop's per-window mutable state. -/
structure WindowState where
  ds18b20Stats : RunningStats
  sht40TempStats : RunningStats
  sht40HumStats : RunningStats
  soilMoistureStats : RunningStats
  windowStartTime : ℕ
  windowEndTime : ℕ
  deriving Repr, DecidableEq

/-- Accumulator state at the start of a window (fresh constructors,
window bounds 0). -/
def WindowState.init : WindowState :=
  ⟨.init, .init, .init, .init, 0, 0⟩

/-- The body of the drain loop (`AggregationTask.cpp` lines 99-113) for a
single received `RawReading`. -/
def stepReading (w : WindowState) (r : RawReading) : WindowState :=
  { ds18b20Stats := w.ds18b20Stats.addValue r.ds18b20_temp
    sht40TempStats := w.sht40TempStats.addValue r.sht40_temp
    sht40HumStats := w.sht40HumStats.addValue r.sht40_humidity
    soilMoistureStats := w.soilMoistureStats.addValue r.sen0193_moisture_raw
    windowStartTime := if w.windowStartTime = 0 then r.timestamp else w.windowStartTime
    windowEndTime := r.timestamp }

/-- Drain the whole raw queue for one window. -/
def runWindow (samples : List RawReading) : WindowState :=
  samples.foldl stepReading WindowState.init

/-- Build the emitted record (`AggregationTask.cpp` lines 122-145) from the
window state; `readingsCollected` is a `uint32_t` narrowed into the
`uint16_t` field `sample_count`. -/
def buildAggregated (w : WindowState) (readingsCollected : ℕ) : AggregatedData :=
  { start_timestamp := w.windowStartTime
    end_timestamp := w.windowEndTime
    sample_count := readingsCollected % 65536
    ds18b20_avg := w.ds18b20Stats.getAvg
    ds18b20_min := w.ds18b20Stats.getMin
    ds18b20_max := w.ds18b20Stats.getMax
    sht40_temp_avg := w.sht40TempStats.getAvg
    sht40_temp_min := w.sht40TempStats.getMin
    sht40_temp_max := w.sht40TempStats.getMax
    sht40_hum_avg := w.sht40HumStats.getAvg
    sht40_hum_min := w.sht40HumStats.getMin
    sht40_hum_max := w.sht40HumStats.getMax
    soil_moisture_avg := w.soilMoistureStats.getAvg
    soil_moisture_min := w.soilMoistureStats.getMin
    soil_moisture_max := w.soilMoistureStats.getMax }

/-- One full aggregation cycle: `none` when zero readings were drained
(step 2's `readingsCollected > 0` guard fails and nothing is emitted). -/
def processWindow (samples : List RawReading) : Option AggregatedData :=
  if samples.isEmpty then none
  else some (buildAggregated (runWindow samples) samples.length)

/-! ### Reference statistics on lists (the spec's arithmetic-mean /
true-min / true-max of the non-NaN values of a channel) -/

/-- The non-NaN values of one channel across the drained samples. -/
def channelValues (f : RawReading → Option ℚ) (samples : List RawReading) : List ℚ :=
  samples.filterMap f

/-- Arithmetic mean of a list, NaN (`none`) when empty. -/
def listMean : List ℚ → Option ℚ
  | [] => none
  | l => some (l.sum / l.length)

/-- True minimum of a list, NaN (`none`) when empty. -/
def listMin : List ℚ → Option ℚ
  | [] => none
  | v :: rest => some (rest.foldl min v)

/-- True maximum of a list, NaN (`none`) when empty. -/
def listMax : List ℚ → Option ℚ
  | [] => none
  | v :: rest => some (rest.foldl max v)

/-! #### Fold lemmas: the accumulator agrees with the reference
statistics -/

theorem addValue_none (s : RunningStats) : s.addValue none = s := rfl

theorem foldl_addValue_count (l : List (Option ℚ)) (s : RunningStats) :
    (l.foldl RunningStats.addValue s).count = s.count + (l.filterMap id).length := by
  induction l generalizing s with
  | nil => simp
  | cons x rest ih =>
    cases x with
    | none => simpa using ih s
    | some v =>
      simp only [List.foldl_cons, List.filterMap_cons_some, id]
      rw [ih]
      simp [RunningStats.addValue, Nat.add_comm, Nat.add_assoc, Nat.add_left_comm]

theorem foldl_addValue_sum (l : List (Option ℚ)) (s : RunningStats) :
    (l.foldl RunningStats.addValue s).sum = s.sum + (l.filterMap id).sum := by
  induction l generalizing s with
  | nil => simp
  | cons x rest ih =>
    cases x with
    | none => simpa using ih s
    | some v =>
      simp only [List.foldl_cons, List.filterMap_cons_some, id]
      rw [ih]
      simp [RunningStats.addValue]
      ring

/-- Merging a new value into the min field. -/
theorem addValue_minVal (s : RunningStats) (v : ℚ) :
    (s.addValue (some v)).minVal =
      some (match s.minVal with | none => v | some m => min v m) := by
  cases h : s.minVal with
  | none => simp [RunningStats.addValue, h]
  | some m =>
    simp only [RunningStats.addValue, h]
    rcases lt_or_le v m with hvm | hvm
    · simp [hvm, min_eq_left hvm.le]
    · simp [not_lt.mpr hvm, min_eq_right hvm]

theorem addValue_maxVal (s : RunningStats) (v : ℚ) :
    (s.addValue (some v)).maxVal =
      some (match s.maxVal with | none => v | some m => max v m) := by
  cases h : s.maxVal with
  | none => simp [RunningStats.addValue, h]
  | some m =>
    simp only [RunningStats.addValue, h]
    rcases lt_or_le m v with hvm | hvm
    · simp [hvm, max_eq_left hvm.le]
    · simp [not_lt.mpr hvm, not_lt_of_le hvm, max_eq_right hvm]

theorem foldl_addValue_minVal (l : List (Option ℚ)) :
    ∀ (s : RunningStats) (v : ℚ), s.minVal = some v →
      (l.foldl RunningStats.addValue s).minVal =
        some ((l.filterMap id).foldl min v) := by
  induction l with
  | nil => intro s v h; simpa using h
  | cons x rest ih =>
    intro s v h
    cases x with
    | none => simpa using ih s v h
    | some w =>
      have hmin : (s.addValue (some w)).minVal = some (min w v) := by
        rw [addValue_minVal, h]
      simp only [List.foldl_cons, List.filterMap_cons_some, id]
      rw [ih (s.addValue (some w)) (min w v) hmin, min_comm w v]
      simp [List.filterMap_cons]

theorem foldl_addValue_maxVal (l : List (Option ℚ)) :
    ∀ (s : RunningStats) (v : ℚ), s.maxVal = some v →
      (l.foldl RunningStats.addValue s).maxVal =
        some ((l.filterMap id).foldl max v) := by
  induction l with
  | nil => intro s v h; simpa using h
  | cons x rest ih =>
    intro s v h
    cases x with
    | none => simpa using ih s v h
    | some w =>
      have hmax : (s.addValue (some w)).maxVal = some (max w v) := by
        rw [addValue_maxVal, h]
      simp only [List.foldl_cons, List.filterMap_cons_some, id]
      rw [ih (s.addValue (some w)) (max w v) hmax, max_comm w v]
      simp [List.filterMap_cons]

/-- Folding one channel's values through a fresh accumulator. -/
def chanFold (f : RawReading → Option ℚ) (samples : List RawReading) : RunningStats :=
  (samples.map f).foldl RunningStats.addValue RunningStats.init

theorem foldl_addValue_init_minVal (l : List (Option ℚ)) :
    (l.foldl RunningStats.addValue RunningStats.init).minVal =
      listMin (l.filterMap id) := by
  induction l with
  | nil => rfl
  | cons x rest ih =>
    cases x with
    | none => simpa [RunningStats.addValue] using ih
    | some v =>
      have hstart : (RunningStats.init.addValue (some v)).minVal = some v := rfl
      simp only [List.foldl_cons, List.filterMap_cons_some, id]
      rw [foldl_addValue_minVal rest _ v hstart]
      simp [listMin, List.filterMap_cons]

theorem foldl_addValue_init_maxVal (l : List (Option ℚ)) :
    (l.foldl RunningStats.addValue RunningStats.init).maxVal =
      listMax (l.filterMap id) := by
  induction l with
  | nil => rfl
  | cons x rest ih =>
    cases x with
    | none => simpa [RunningStats.addValue] using ih
    | some v =>
      have hstart : (RunningStats.init.addValue (some v)).maxVal = some v := rfl
      simp only [List.foldl_cons, List.filterMap_cons_some, id]
      rw [foldl_addValue_maxVal rest _ v hstart]
      simp [listMax, List.filterMap_cons]

theorem chanFold_count (f : RawReading → Option ℚ) (samples : List RawReading) :
    (chanFold f samples).count = (samples.filterMap f).length := by
  unfold chanFold
  rw [foldl_addValue_count]
  simp [RunningStats.init, List.filterMap_map, Function.id_comp]

theorem chanFold_sum (f : RawReading → Option ℚ) (samples : List RawReading) :
    (chanFold f samples).sum = (samples.filterMap f).sum := by
  unfold chanFold
  rw [foldl_addValue_sum]
  simp [RunningStats.init, List.filterMap_map, Function.id_comp]

theorem chanFold_getAvg (f : RawReading → Option ℚ) (samples : List RawReading) :
    (chanFold f samples).getAvg = listMean (samples.filterMap f) := by
  cases hv : samples.filterMap f with
  | nil =>
    have hc : (chanFold f samples).count = 0 := by rw [chanFold_count, hv]; rfl
    simp [RunningStats.getAvg, hc, listMean]
  | cons v rest =>
    have hc : (chanFold f samples).count = rest.length + 1 := by
      rw [chanFold_count, hv]; simp
    have hs : (chanFold f samples).sum = (v :: rest).sum := by
      rw [chanFold_sum, hv]
    simp only [RunningStats.getAvg, hc, hs, listMean]
    simp

theorem chanFold_getMin (f : RawReading → Option ℚ) (samples : List RawReading) :
    (chanFold f samples).getMin = listMin (samples.filterMap f) := by
  have hmin : (chanFold f samples).minVal = listMin (samples.filterMap f) := by
    unfold chanFold
    rw [foldl_addValue_init_minVal]
    simp [List.filterMap_map, Function.id_comp]
  cases hv : samples.filterMap f with
  | nil =>
    have hc : (chanFold f samples).count = 0 := by rw [chanFold_count, hv]; rfl
    simp [RunningStats.getMin, hc]
    rfl
  | cons v rest =>
    have hc : (chanFold f samples).count = rest.length + 1 := by
      rw [chanFold_count, hv]; simp
    simp [RunningStats.getMin, hc, hmin, hv]

theorem chanFold_getMax (f : RawReading → Option ℚ) (samples : List RawReading) :
    (chanFold f samples).getMax = listMax (samples.filterMap f) := by
  have hmax : (chanFold f samples).maxVal = listMax (samples.filterMap f) := by
    unfold chanFold
    rw [foldl_addValue_init_maxVal]
    simp [List.filterMap_map, Function.id_comp]
  cases hv : samples.filterMap f with
  | nil =>
    have hc : (chanFold f samples).count = 0 := by rw [chanFold_count, hv]; rfl
    simp [RunningStats.getMax, hc]
    rfl
  | cons v rest =>
    have hc : (chanFold f samples).count = rest.length + 1 := by
      rw [chanFold_count, hv]; simp
    simp [RunningStats.getMax, hc, hmax, hv]

/-! #### The four per-channel projections of the window fold -/

theorem runWindow_ds18b20 (samples : List RawReading) :
    (runWindow samples).ds18b20Stats = chanFold (·.ds18b20_temp) samples := by
  unfold runWindow chanFold
  suffices h : ∀ w : WindowState,
      (samples.foldl stepReading w).ds18b20Stats =
        (samples.map (·.ds18b20_temp)).foldl RunningStats.addValue w.ds18b20Stats from
    h WindowState.init
  induction samples with
  | nil => intro w; rfl
  | cons r rest ih => intro w; simpa [stepReading] using ih (stepReading w r)

theorem runWindow_sht40Temp (samples : List RawReading) :
    (runWindow samples).sht40TempStats = chanFold (·.sht40_temp) samples := by
  unfold runWindow chanFold
  suffices h : ∀ w : WindowState,
      (samples.foldl stepReading w).sht40TempStats =
        (samples.map (·.sht40_temp)).foldl RunningStats.addValue w.sht40TempStats from
    h WindowState.init
  induction samples with
  | nil => intro w; rfl
  | cons r rest ih => intro w; simpa [stepReading] using ih (stepReading w r)

theorem runWindow_sht40Hum (samples : List RawReading) :
    (runWindow samples).sht40HumStats = chanFold (·.sht40_humidity) samples := by
  unfold runWindow chanFold
  suffices h : ∀ w : WindowState,
      (samples.foldl stepReading w).sht40HumStats =
        (samples.map (·.sht40_humidity)).foldl RunningStats.addValue w.sht40HumStats from
    h WindowState.init
  induction samples with
  | nil => intro w; rfl
  | cons r rest ih => intro w; simpa [stepReading] using ih (stepReading w r)

theorem runWindow_soil (samples : List RawReading) :
    (runWindow samples).soilMoistureStats = chanFold (·.sen0193_moisture_raw) samples := by
  unfold runWindow chanFold
  suffices h : ∀ w : WindowState,
      (samples.foldl stepReading w).soilMoistureStats =
        (samples.map (·.sen0193_moisture_raw)).foldl RunningStats.addValue w.soilMoistureStats from
    h WindowState.init
  induction samples with
  | nil => intro w; rfl
  | cons r rest ih => intro w; simpa [stepReading] using ih (stepReading w r)

/-! #### Window bounds -/

/-- Once `windowStartTime` is nonzero, the drain loop never changes it
(the `if (windowStartTime == 0)` guard). -/
theorem windowStart_preserved (samples : List RawReading) :
    ∀ w : WindowState, w.windowStartTime ≠ 0 →
      (samples.foldl stepReading w).windowStartTime = w.windowStartTime := by
  induction samples with
  | nil => intro w _; rfl
  | cons r rest ih =>
    intro w hw
    have hstep : (stepReading w r).windowStartTime = w.windowStartTime := by
      simp [stepReading, hw]
    simpa [hstep] using ih (stepReading w r) (by simpa [hstep] using hw)

/-- `windowEndTime` after the drain is the last drained timestamp. -/
theorem windowEnd_foldl (samples : List RawReading) :
    ∀ w : WindowState, (samples.foldl stepReading w).windowEndTime =
      (samples.getLast?.map RawReading.timestamp).getD w.windowEndTime := by
  induction samples with
  | nil => intro w; rfl
  | cons r rest ih =>
    intro w
    cases rest with
    | nil => simp [stepReading]
    | cons r2 rest2 =>
      have h := ih (stepReading w r)
      simp only [List.foldl_cons] at h ⊢
      rw [h, List.getLast?_cons_cons]
      cases hL : (r2 :: rest2).getLast? with
      | none => simp at hL
      | some x => simp [stepReading]

/-! ### Claim C2: per-channel statistics of an aggregation window -/

/-- C2: for every non-empty sequence of RawSamples drained in one
aggregation window (of realistic size, i.e. fewer than 2^16 samples, so
that the `uint16_t` narrowing of `sample_count` is lossless), the emitted
record's per-channel `avg` is the arithmetic mean of that channel's
non-NaN values, `min`/`max` are the true minimum/maximum of the non-NaN
values, a channel with zero non-NaN values gets NaN (`none`) for all
three statistics (via `listMean`/`listMin`/`listMax` on the empty list),
and `sample_count` is the total number of drained samples regardless of
per-channel NaN. -/
theorem aggregation_statistics_correct (samples : List RawReading)
    (hne : samples ≠ []) (hlen : samples.length < 65536) :
    ∃ agg, processWindow samples = some agg ∧
      agg.sample_count = samples.length ∧
      agg.ds18b20_avg = listMean (channelValues (·.ds18b20_temp) samples) ∧
      agg.ds18b20_min = listMin (channelValues (·.ds18b20_temp) samples) ∧
      agg.ds18b20_max = listMax (channelValues (·.ds18b20_temp) samples) ∧
      agg.sht40_temp_avg = listMean (channelValues (·.sht40_temp) samples) ∧
      agg.sht40_temp_min = listMin (channelValues (·.sht40_temp) samples) ∧
      agg.sht40_temp_max = listMax (channelValues (·.sht40_temp) samples) ∧
      agg.sht40_hum_avg = listMean (channelValues (·.sht40_humidity) samples) ∧
      agg.sht40_hum_min = listMin (channelValues (·.sht40_humidity) samples) ∧
      agg.sht40_hum_max = listMax (channelValues (·.sht40_humidity) samples) ∧
      agg.soil_moisture_avg = listMean (channelValues (·.sen0193_moisture_raw) samples) ∧
      agg.soil_moisture_min = listMin (channelValues (·.sen0193_moisture_raw) samples) ∧
      agg.soil_moisture_max = listMax (channelValues (·.sen0193_moisture_raw) samples) := by
  have hemp : samples.isEmpty = false := by
    cases samples with
    | nil => exact absurd rfl hne
    | cons a l => rfl
  refine ⟨buildAggregated (runWindow samples) samples.length, ?_, ?_, ?_, ?_, ?_, ?_,
    ?_, ?_, ?_, ?_, ?_, ?_, ?_, ?_⟩
  · simp [processWindow, hemp]
  · simpa [buildAggregated] using Nat.mod_eq_of_lt hlen
  · simpa [buildAggregated, runWindow_ds18b20, channelValues] using
      chanFold_getAvg (·.ds18b20_temp) samples
  · simpa [buildAggregated, runWindow_ds18b20, channelValues] using
      chanFold_getMin (·.ds18b20_temp) samples
  · simpa [buildAggregated, runWindow_ds18b20, channelValues] using
      chanFold_getMax (·.ds18b20_temp) samples
  · simpa [buildAggregated, runWindow_sht40Temp, channelValues] using
      chanFold_getAvg (·.sht40_temp) samples
  · simpa [buildAggregated, runWindow_sht40Temp, channelValues] using
      chanFold_getMin (·.sht40_temp) samples
  · simpa [buildAggregated, runWindow_sht40Temp, channelValues] using
      chanFold_getMax (·.sht40_temp) samples
  · simpa [buildAggregated, runWindow_sht40Hum, channelValues] using
      chanFold_getAvg (·.sht40_humidity) samples
  · simpa [buildAggregated, runWindow_sht40Hum, channelValues] using
      chanFold_getMin (·.sht40_humidity) samples
  · simpa [buildAggregated, runWindow_sht40Hum, channelValues] using
      chanFold_getMax (·.sht40_humidity) samples
  · simpa [buildAggregated, runWindow_soil, channelValues] using
      chanFold_getAvg (·.sen0193_moisture_raw) samples
  · simpa [buildAggregated, runWindow_soil, channelValues] using
      chanFold_getMin (·.sen0193_moisture_raw) samples
  · simpa [buildAggregated, runWindow_soil, channelValues] using
      chanFold_getMax (·.sen0193_moisture_raw) samples

/-- The spec's end-to-end scenario: three raw samples with
DS18B20 = {20.0, 22.0, NaN} in one window. -/
def demoWindow : List RawReading :=
  [⟨1700000000, some 20, none, none, none⟩,
   ⟨1700000001, some 22, none, none, none⟩,
   ⟨1700000002, none, none, none, none⟩]

/-- Witness for C2 at the spec's own end-to-end scenario. -/
theorem aggregation_statistics_correct_witness :
    ∃ agg, processWindow demoWindow = some agg ∧
      agg.sample_count = demoWindow.length ∧
      agg.ds18b20_avg = listMean (channelValues (·.ds18b20_temp) demoWindow) ∧
      agg.ds18b20_min = listMin (channelValues (·.ds18b20_temp) demoWindow) ∧
      agg.ds18b20_max = listMax (channelValues (·.ds18b20_temp) demoWindow) ∧
      agg.sht40_temp_avg = listMean (channelValues (·.sht40_temp) demoWindow) ∧
      agg.sht40_temp_min = listMin (channelValues (·.sht40_temp) demoWindow) ∧
      agg.sht40_temp_max = listMax (channelValues (·.sht40_temp) demoWindow) ∧
      agg.sht40_hum_avg = listMean (channelValues (·.sht40_humidity) demoWindow) ∧
      agg.sht40_hum_min = listMin (channelValues (·.sht40_humidity) demoWindow) ∧
      agg.sht40_hum_max = listMax (channelValues (·.sht40_humidity) demoWindow) ∧
      agg.soil_moisture_avg = listMean (channelValues (·.sen0193_moisture_raw) demoWindow) ∧
      agg.soil_moisture_min = listMin (channelValues (·.sen0193_moisture_raw) demoWindow) ∧
      agg.soil_moisture_max = listMax (channelValues (·.sen0193_moisture_raw) demoWindow) :=
  aggregation_statistics_correct demoWindow (by decide) (by decide)

/-! ### Claim C4: window start/end timestamps

The source takes the FIRST drained sample's timestamp as `windowStartTime`
and the LAST drained sample's timestamp as `windowEndTime` (queue order),
not the minimum/maximum.  When the RTC is stepped backwards mid-window
(time-sync writes the clock), a later sample carries a smaller timestamp
and the emitted record has `start_timestamp > end_timestamp`. -/

/-- Two drained samples whose timestamps go backwards (RTC corrected
backwards between the ticks). -/
def c4Samples : List RawReading :=
  [⟨100, none, none, none, none⟩, ⟨50, none, none, none, none⟩]

/-- C4 counterexample: on the window `c4Samples` (timestamps 100 then 50)
the emitted record has `start_timestamp = 100` (the first sample, not
the minimum 50) and `end_timestamp = 50` (the last sample, not the
maximum 100), so `start_timestamp ≤ end_timestamp` fails. -/
theorem window_bounds_counterexample :
    (processWindow c4Samples).map AggregatedData.start_timestamp = some 100 ∧
    (processWindow c4Samples).map AggregatedData.end_timestamp = some 50 ∧
    (processWindow c4Samples).map
        (fun agg => decide (agg.start_timestamp ≤ agg.end_timestamp)) = some false := by
  decide

/-- In a pairwise-nondecreasing nonempty list, the head's timestamp is at
most the last element's timestamp. -/
theorem head_timestamp_le_getLast (samples : List RawReading) (hne : samples ≠ [])
    (hsort : samples.Pairwise (fun a b => a.timestamp ≤ b.timestamp)) :
    (samples.head hne).timestamp ≤ (samples.getLast hne).timestamp := by
  cases samples with
  | nil => exact absurd rfl hne
  | cons r rest =>
    cases rest with
    | nil => simp
    | cons r2 rest2 =>
      have hrel : ∀ b ∈ r2 :: rest2, r.timestamp ≤ b.timestamp :=
        fun b hb => List.rel_of_pairwise_cons hsort hb
      have hlast : (r :: r2 :: rest2).getLast hne = (r2 :: rest2).getLast (by simp) :=
        List.getLast_cons (by simp)
      rw [List.head_cons, hlast]
      exact hrel _ (List.getLast_mem _)

/-- C4 amended: for every emitted record, `start_timestamp` is the FIRST
drained sample's timestamp and `end_timestamp` is the LAST drained
sample's timestamp, in queue order (given the upstream invariant that no
drained timestamp is 0); `start_timestamp ≤ end_timestamp` holds only
when the drained timestamps are nondecreasing in queue order. -/
theorem window_bounds_first_last (samples : List RawReading) (hne : samples ≠ [])
    (hnz : ∀ r ∈ samples, r.timestamp ≠ 0) :
    ∃ agg, processWindow samples = some agg ∧
      agg.start_timestamp = (samples.head hne).timestamp ∧
      agg.end_timestamp = (samples.getLast hne).timestamp ∧
      (samples.Pairwise (fun a b => a.timestamp ≤ b.timestamp) →
        agg.start_timestamp ≤ agg.end_timestamp) := by
  cases samples with
  | nil => exact absurd rfl hne
  | cons r rest =>
    refine ⟨buildAggregated (runWindow (r :: rest)) (r :: rest).length,
      by simp [processWindow], ?_, ?_, ?_⟩
    · have hs1 : (stepReading WindowState.init r).windowStartTime = r.timestamp := by
        simp [stepReading, WindowState.init]
      have hnz0 : (stepReading WindowState.init r).windowStartTime ≠ 0 := by
        rw [hs1]; exact hnz r (List.mem_cons_self r rest)
      have := windowStart_preserved rest (stepReading WindowState.init r) hnz0
      simp only [buildAggregated, runWindow, List.foldl_cons]
      rw [this, hs1, List.head_cons]
    · have := windowEnd_foldl (r :: rest) WindowState.init
      simp only [buildAggregated, runWindow]
      rw [this, List.getLast?_eq_getLast _ hne]
      rfl
    · intro hsort
      -- start = head, end = last; chain the two equalities already proved
      have hs1 : (stepReading WindowState.init r).windowStartTime = r.timestamp := by
        simp [stepReading, WindowState.init]
      have hnz0 : (stepReading WindowState.init r).windowStartTime ≠ 0 := by
        rw [hs1]; exact hnz r (List.mem_cons_self r rest)
      have hstart := windowStart_preserved rest (stepReading WindowState.init r) hnz0
      have hend := windowEnd_foldl (r :: rest) WindowState.init
      simp only [buildAggregated, runWindow, List.foldl_cons] at *
      rw [hstart, hs1, hend, List.getLast?_eq_getLast _ hne]
      simpa using head_timestamp_le_getLast (r :: rest) hne hsort

/-- Witness for the amended C4 on a two-sample nondecreasing window. -/
theorem window_bounds_first_last_witness :
    ∃ agg, processWindow demoWindow = some agg ∧
      agg.start_timestamp = (demoWindow.head (by decide)).timestamp ∧
      agg.end_timestamp = (demoWindow.getLast (by decide)).timestamp ∧
      (demoWindow.Pairwise (fun a b => a.timestamp ≤ b.timestamp) →
        agg.start_timestamp ≤ agg.end_timestamp) :=
  window_bounds_first_last demoWindow (by decide) (by decide)

/-! ### Claim C1: delivery through the single shared `aggregatedDataQueue`

The source has ONE queue: `aggregationTask` sends each record once
(`xQueueSend`, AggregationTask.cpp line 152), and BOTH `loggingTask`
(LoggingTask.cpp line 223) and `cloudUploadTask` (CloudTask.cpp line 230)
dequeue from it with `xQueueReceive`.  The pipeline is modelled as a
state machine: `emit` is the aggregation send (appending when a slot is
free, dropping on the bounded-send timeout), `logRecv`/`cloudRecv` are
the two consumers' successful dequeues of the FIFO head. -/

inductive PEvent (α : Type) where
  | emit (r : α)
  | logRecv
  | cloudRecv
  deriving Repr, DecidableEq

/-- Queue contents plus what each consumer has received so far (and what
the producer dropped on queue-full). -/
structure PipeState (α : Type) where
  queue : List α
  storage : List α
  upload : List α
  dropped : List α
  deriving Repr, DecidableEq

def PipeState.init {α : Type} : PipeState α := ⟨[], [], [], []⟩

/-- One interleaving step of the three tasks around the shared queue.
`cap` is `AGGREGATED_DATA_QUEUE_SIZE` (10 in `Config.h`). -/
def pstep {α : Type} (cap : ℕ) (s : PipeState α) : PEvent α → PipeState α
  | .emit r =>
    if s.queue.length < cap then { s with queue := s.queue ++ [r] }
    else { s with dropped := r :: s.dropped }
  | .logRecv =>
    match s.queue with
    | [] => s
    | r :: q => { s with queue := q, storage := s.storage ++ [r] }
  | .cloudRecv =>
    match s.queue with
    | [] => s
    | r :: q => { s with queue := q, upload := s.upload ++ [r] }

/-- Run an interleaving from the empty initial state. -/
def execPipe {α : Type} (cap : ℕ) (evs : List (PEvent α)) : PipeState α :=
  evs.foldl (pstep cap) PipeState.init

/-- How many times the interleaving emitted the record `r`. -/
def countEmits {α : Type} [DecidableEq α] (r : α) (evs : List (PEvent α)) : ℕ :=
  evs.countP (fun e => decide (e = PEvent.emit r))

/-- Total number of copies of `r` anywhere in the pipeline state. -/
def recTotal {α : Type} [DecidableEq α] (r : α) (s : PipeState α) : ℕ :=
  s.queue.count r + s.storage.count r + s.upload.count r + s.dropped.count r

theorem pstep_recTotal {α : Type} [DecidableEq α] (cap : ℕ) (r : α)
    (s : PipeState α) (e : PEvent α) :
    recTotal r (pstep cap s e) =
      recTotal r s + (if e = PEvent.emit r then 1 else 0) := by
  cases e with
  | emit x =>
    by_cases hle : s.queue.length < cap
    · simp only [pstep, if_pos hle, recTotal, List.count_append]
      by_cases hx : x = r
      · subst hx; simp [List.count_singleton]; omega
      · simp [List.count_singleton, hx, PEvent.emit.injEq]
    · simp only [pstep, if_neg hle, recTotal, List.count_cons]
      by_cases hx : x = r
      · subst hx; simp; omega
      · simp [hx, PEvent.emit.injEq]
  | logRecv =>
    cases hq : s.queue with
    | nil => simp [pstep, hq, recTotal]
    | cons x q =>
      simp only [pstep, hq, recTotal, List.count_append, List.count_cons]
      by_cases hx : x = r
      · subst hx; simp [List.count_singleton]; omega
      · simp [List.count_singleton, hx]
  | cloudRecv =>
    cases hq : s.queue with
    | nil => simp [pstep, hq, recTotal]
    | cons x q =>
      simp only [pstep, hq, recTotal, List.count_append, List.count_cons]
      by_cases hx : x = r
      · subst hx; simp [List.count_singleton]; omega
      · simp [List.count_singleton, hx]

/-- Conservation: copies of `r` in the pipeline = number of emissions. -/
theorem execPipe_recTotal {α : Type} [DecidableEq α] (cap : ℕ) (r : α)
    (evs : List (PEvent α)) :
    recTotal r (execPipe cap evs) = countEmits r evs := by
  suffices h : ∀ s : PipeState α,
      recTotal r (evs.foldl (pstep cap) s) = recTotal r s + countEmits r evs by
    simpa [execPipe, PipeState.init, recTotal] using h PipeState.init
  induction evs with
  | nil => intro s; simp [countEmits]
  | cons e rest ih =>
    intro s
    simp only [List.foldl_cons]
    rw [ih (pstep cap s e), pstep_recTotal cap r s e]
    simp only [countEmits, List.countP_cons]
    by_cases he : e = PEvent.emit r
    · simp [he]; ring
    · simp [he]

/-- C1 counterexample: a single record is emitted once into the shared
queue and the Storage task dequeues it first.  The execution then has the
queue empty, Storage holding the record, and Upload having received
nothing — the emitted record was NOT delivered to both consumers. -/
theorem both_consumers_counterexample :
    (execPipe 10 [PEvent.emit (0 : ℕ), PEvent.logRecv]).storage = [0] ∧
    (execPipe 10 [PEvent.emit (0 : ℕ), PEvent.logRecv]).upload = [] ∧
    (execPipe 10 [PEvent.emit (0 : ℕ), PEvent.logRecv]).queue = [] := by
  decide

/-- C1 amended: because there is only one `aggregatedDataQueue`, each
record the aggregation task enqueues is delivered to AT MOST ONE of the
two consumers — a record received by the Storage task is never also
received by the Upload task (and vice versa), in any interleaving. -/
theorem single_queue_exclusive_delivery {α : Type} [DecidableEq α]
    (cap : ℕ) (r : α) (evs : List (PEvent α))
    (hone : countEmits r evs = 1) :
    ¬ (r ∈ (execPipe cap evs).storage ∧ r ∈ (execPipe cap evs).upload) := by
  rintro ⟨hs, hu⟩
  have hcons := execPipe_recTotal cap r evs
  rw [hone] at hcons
  have h1 : 0 < (execPipe cap evs).storage.count r := List.count_pos_iff.mpr hs
  have h2 : 0 < (execPipe cap evs).upload.count r := List.count_pos_iff.mpr hu
  simp only [recTotal] at hcons
  omega

/-- Witness for the amended C1 at a concrete interleaving. -/
theorem single_queue_exclusive_delivery_witness :
    ¬ ((0 : ℕ) ∈ (execPipe 10 [PEvent.emit (0 : ℕ), PEvent.logRecv]).storage ∧
       (0 : ℕ) ∈ (execPipe 10 [PEvent.emit (0 : ℕ), PEvent.logRecv]).upload) :=
  single_queue_exclusive_delivery 10 0 [PEvent.emit 0, PEvent.logRecv] (by decide)

/-! ### Claims C3 and C9: the upload-cycle drain (`cloudUploadTask`,
CloudTask.cpp lines 226-245)

Each cycle, the task dequeues records non-blockingly; each is published;
on the first failure the failed record is pushed back with
`xQueueSendToFront(aggregatedDataQueue, &data, 0)` — zero timeout, result
ignored — and the drain stops.  `sendToFront` models that call against a
bounded queue of capacity `cap`: when the queue is full the call fails
and, the result being ignored, the record is silently lost. -/

/-- `xQueueSendToFront(queue, &x, 0)`: front-insert if a slot is free,
otherwise fail (leaving the queue unchanged; the caller ignores the
result). -/
def sendToFront {α : Type} (cap : ℕ) (q : List α) (x : α) : List α :=
  if q.length < cap then x :: q else q

/-- The STEP 3 drain loop.  `pub r` is the outcome of
`publishDataToMQTT(r)`.  Returns `(published, attempted, finalQueue)`:
the records counted as uploaded, the records on which publish was
invoked, and the queue contents when the loop exits. -/
def drainUpload {α : Type} (cap : ℕ) (pub : α → Bool) :
    List α → List α × List α × List α
  | [] => ([], [], [])
  | r :: rest =>
    if pub r then
      let res := drainUpload cap pub rest
      (r :: res.1, r :: res.2.1, res.2.2)
    else ([], [r], sendToFront cap rest r)

/-- C3: during an upload-cycle drain (of a queue within its capacity,
and with no interference — see C9 for the full-queue race): the records
before the first publish failure are exactly the ones published, the
failed record is pushed back onto the FRONT of the queue (it heads the
next cycle, followed by the untouched tail), no record after it is
attempted, and when every publish succeeds the queue is fully drained —
all four facts are this single characterization, since
`q.takeWhile pub` is the maximal prefix of successes and
`q.dropWhile pub` is empty exactly when all publishes succeed. -/
theorem upload_drain_characterization {α : Type} (cap : ℕ) (pub : α → Bool)
    (q : List α) (hcap : q.length ≤ cap) :
    drainUpload cap pub q =
      (q.takeWhile pub, q.takeWhile pub ++ (q.dropWhile pub).take 1,
        q.dropWhile pub) := by
  induction q with
  | nil => rfl
  | cons r rest ih =>
    by_cases hr : pub r
    · have hrest : rest.length ≤ cap := by
        simp only [List.length_cons] at hcap; omega
      simp [drainUpload, hr, List.takeWhile_cons, List.dropWhile_cons, ih hrest]
    · have hfree : rest.length < cap := by
        simp only [List.length_cons] at hcap; omega
      simp [drainUpload, hr, List.takeWhile_cons, List.dropWhile_cons,
        sendToFront, hfree]

/-- Witness for C3: a three-record drain where the second publish fails:
record 1 is published, record 2 is attempted and re-queued at the front,
record 3 is untouched. -/
theorem upload_drain_characterization_witness :
    drainUpload 10 (fun x => decide (x ≤ 1)) [1, 2, 3] =
      (([1, 2, 3] : List ℕ).takeWhile (fun x => decide (x ≤ 1)),
        ([1, 2, 3] : List ℕ).takeWhile (fun x => decide (x ≤ 1)) ++
          (([1, 2, 3] : List ℕ).dropWhile (fun x => decide (x ≤ 1))).take 1,
        ([1, 2, 3] : List ℕ).dropWhile (fun x => decide (x ≤ 1))) :=
  upload_drain_characterization 10 (fun x => decide (x ≤ 1)) [1, 2, 3] (by decide)

/-- The aggregation task's `xQueueSend`s that slip in between the upload
task's dequeue and its `xQueueSendToFront` (each appended only if a slot
is free). -/
def enqueueEach {α : Type} (cap : ℕ) (q : List α) (es : List α) : List α :=
  es.foldl (fun acc e => if acc.length < cap then acc ++ [e] else acc) q

/-- The failed-publish path with interference: after dequeuing `r` the
queue holds `rest`; the aggregation task enqueues `emitted`; then the
upload task runs `xQueueSendToFront(queue, &r, 0)` ignoring the result. -/
def requeueAfterFailure {α : Type} (cap : ℕ) (rest emitted : List α) (r : α) :
    List α :=
  sendToFront cap (enqueueEach cap rest emitted) r

theorem mem_enqueueEach {α : Type} (cap : ℕ) (es : List α) :
    ∀ (q : List α) (x : α), x ∈ enqueueEach cap q es → x ∈ q ∨ x ∈ es := by
  induction es with
  | nil => intro q x hx; exact Or.inl hx
  | cons e rest ih =>
    intro q x hx
    simp only [enqueueEach, List.foldl_cons] at hx
    rcases ih _ x hx with h | h
    · by_cases hle : q.length < cap
      · rw [if_pos hle] at h
        rcases List.mem_append.mp h with h | h
        · exact Or.inl h
        · right; simp at h; simp [h]
      · rw [if_neg hle] at h
        exact Or.inl h
    · right; simp [h]

/-- C9: the push-back of a failed record uses a zero-timeout
`xQueueSendToFront` whose result is ignored.  If the queue is full when
the publish fails (records having been enqueued since the dequeue), the
failed record `r` is silently discarded — it is in no queue afterwards;
the re-queue-at-front guarantee holds exactly when a slot is free. -/
theorem requeue_front_only_with_free_slot {α : Type} [DecidableEq α]
    (cap : ℕ) (rest emitted : List α) (r : α)
    (hr1 : r ∉ rest) (hr2 : r ∉ emitted) :
    ((enqueueEach cap rest emitted).length ≥ cap →
      r ∉ requeueAfterFailure cap rest emitted r) ∧
    ((enqueueEach cap rest emitted).length < cap →
      requeueAfterFailure cap rest emitted r =
        r :: enqueueEach cap rest emitted) := by
  constructor
  · intro hfull hmem
    unfold requeueAfterFailure sendToFront at hmem
    rw [if_neg (by omega)] at hmem
    rcases mem_enqueueEach cap emitted rest r hmem with h | h
    · exact hr1 h
    · exact hr2 h
  · intro hfree
    unfold requeueAfterFailure sendToFront
    rw [if_pos hfree]

/-- Witness for C9: capacity 2, queue full again at the failure
(`rest = [1]`, interleaved emission `[2]`), failed record `0` is lost;
with a free slot (no interference) it is re-queued at the front. -/
theorem requeue_front_only_with_free_slot_witness :
    ((enqueueEach 2 [1] [2]).length ≥ 2 →
      (0 : ℕ) ∉ requeueAfterFailure 2 [1] [2] 0) ∧
    ((enqueueEach 2 [1] [2]).length < 2 →
      requeueAfterFailure 2 [1] [2] 0 = 0 :: enqueueEach 2 [1] [2]) :=
  requeue_front_only_with_free_slot 2 [1] [2] 0 (by decide) (by decide)

/-! ### Claim C5: no zero timestamp past Acquisition

`sensorReadingTask` (SensorTask.cpp lines 124-178) enqueues a reading
only when the RTC read succeeded, and `DS1308Sensor::read`
(DS1308Sensor.h lines 79-100) succeeds only after validating
`2020 ≤ year ≤ 2100`, storing `now.unixtime()`.  `unixtime` is RTClib's
`DateTime::unixtime()` (an external library dependency), embedded below:
seconds since 2000-01-01 plus the 1970→2000 epoch offset. -/

/-- Calendar fields of RTClib's `DateTime` (`year` is the full year). -/
structure DateTimeM where
  year : ℕ
  month : ℕ
  day : ℕ
  hour : ℕ
  minute : ℕ
  second : ℕ
  deriving Repr, DecidableEq

/-- RTClib's `daysInMonth` table (index 0 = January; leap day handled in
`date2days`). -/
def daysInMonth : ℕ → ℕ
  | 0 => 31 | 1 => 28 | 2 => 31 | 3 => 30 | 4 => 31 | 5 => 30
  | 6 => 31 | 7 => 31 | 8 => 30 | 9 => 31 | 10 => 30 | _ => 31

/-- RTClib `date2days`: day count since 2000-01-01 (the year offset
`y - 2000`, the day-of-month, the month table, the leap correction). -/
def date2days (y m d : ℕ) : ℕ :=
  let yOff := y - 2000
  let days := d + (List.range (m - 1)).foldl (fun acc i => acc + daysInMonth i) 0
  let days := if 2 < m ∧ yOff % 4 = 0 then days + 1 else days
  days + 365 * yOff + (yOff + 3) / 4 - 1

/-- RTClib `time2ulong`. -/
def time2ulong (days h mi s : ℕ) : ℕ :=
  ((days * 24 + h) * 60 + mi) * 60 + s

def SECONDS_FROM_1970_TO_2000 : ℕ := 946684800

/-- RTClib `DateTime::unixtime()`. -/
def unixtime (dt : DateTimeM) : ℕ :=
  time2ulong (date2days dt.year dt.month dt.day) dt.hour dt.minute dt.second +
    SECONDS_FROM_1970_TO_2000

/-- `DS1308Sensor::read`: fails when the RTC was never found or the year
lies outside `[2020, 2100]`; on success stores `now.unixtime()` as the
reading's timestamp. -/
def ds1308Read (rtcFound : Bool) (dt : DateTimeM) : Option ℕ :=
  if ¬rtcFound then none
  else if dt.year < 2020 ∨ dt.year > 2100 then none
  else some (unixtime dt)

/-- One acquisition tick (`sensorReadingTask` loop body), returning the
reading pushed into `rawReadingQueue`, or `none` when nothing was
enqueued (RTC failure sets `readingValid = false`; a full queue drops
the sample).  The environmental sensor reads write only their own
channel slot (the `ISensor` contract and the DS18B20/SHT40/SEN0193
`read` implementations), never the timestamp, so they appear as the four
channel outcomes. -/
def sensorTick (rtcFound : Bool) (dt : DateTimeM) (queueHasSpace : Bool)
    (ds18b20 sht40T sht40H soil : Option ℚ) : Option RawReading :=
  match ds1308Read rtcFound dt with
  | none => none
  | some t =>
    if queueHasSpace then
      some { timestamp := t, ds18b20_temp := ds18b20, sht40_temp := sht40T,
             sht40_humidity := sht40H, sen0193_moisture_raw := soil }
    else none

/-- C5: a reading with `timestamp = 0` is never enqueued: whatever the
RTC date and sensor outcomes, an enqueued reading carries a timestamp of
at least the 1970→2000 epoch offset, hence nonzero. -/
theorem enqueued_timestamp_nonzero (rtcFound : Bool) (dt : DateTimeM)
    (queueHasSpace : Bool) (ds18b20 sht40T sht40H soil : Option ℚ)
    (r : RawReading)
    (h : sensorTick rtcFound dt queueHasSpace ds18b20 sht40T sht40H soil = some r) :
    r.timestamp ≠ 0 := by
  unfold sensorTick at h
  cases hrtc : ds1308Read rtcFound dt with
  | none => rw [hrtc] at h; exact absurd h (by simp)
  | some t =>
    rw [hrtc] at h
    by_cases hq : queueHasSpace
    · simp only [hq, if_true] at h
      have ht : r.timestamp = t := by
        rw [← Option.some.inj h]
      have htt : t = unixtime dt := by
        unfold ds1308Read at hrtc
        by_cases h1 : rtcFound
        · by_cases h2 : dt.year < 2020 ∨ dt.year > 2100
          · simp [h1, h2] at hrtc
          · simp [h1, h2] at hrtc; omega
        · simp [h1] at hrtc
      rw [ht, htt]
      unfold unixtime SECONDS_FROM_1970_TO_2000
      omega
    · simp [hq] at h

/-- Witness for C5 at a concrete RTC date (2024-01-01 00:00:00). -/
theorem enqueued_timestamp_nonzero_witness :
    ({ timestamp := unixtime ⟨2024, 1, 1, 0, 0, 0⟩, ds18b20_temp := none,
       sht40_temp := none, sht40_humidity := none,
       sen0193_moisture_raw := none } : RawReading).timestamp ≠ 0 :=
  enqueued_timestamp_nonzero true ⟨2024, 1, 1, 0, 0, 0⟩ true none none none none
    _ (by decide)

/-! ### Claim C7: storage-failure handling (`loggingTask`,
LoggingTask.cpp lines 219-271) -/

/-- The logging task's loop state and the status fields it touches. -/
structure LogState where
  sdCardInitialized : Bool
  sd_card_ok : Bool
  sd_write_errors : ℕ
  failedWrites : ℕ
  successfulWrites : ℕ
  deriving Repr, DecidableEq

/-- Processing of one received record: the reinit attempt when the card
is down (lines 225-236), the bounded mutex take (line 241), the write
and its two outcomes (lines 244-263), and the mutex-timeout branch
(lines 265-269).  `reinitOk`, `mutexOk`, `writeOk` are the outcomes of
`initializeSDCard()`, `xSemaphoreTake(sdCardMutex, 5000ms)` and
`writeDataToSD(data)`. -/
def loggingStep (st : LogState) (reinitOk mutexOk writeOk : Bool) : LogState :=
  let st :=
    if st.sdCardInitialized then st
    else { st with sdCardInitialized := reinitOk, sd_card_ok := reinitOk }
  if ¬st.sdCardInitialized then
    { st with failedWrites := st.failedWrites + 1,
              sd_write_errors := st.sd_write_errors + 1 }
  else if mutexOk then
    if writeOk then
      { st with successfulWrites := st.successfulWrites + 1 }
    else
      { st with failedWrites := st.failedWrites + 1,
                sd_write_errors := st.sd_write_errors + 1,
                sdCardInitialized := false, sd_card_ok := false }
  else
    { st with failedWrites := st.failedWrites + 1,
              sd_write_errors := st.sd_write_errors + 1 }

/-- One iteration of the receive loop against the shared queue: the head
record is dequeued (blocking receive) and processed; the loop body
contains no send back into `aggregatedDataQueue`. -/
def loggingIteration (q : List AggregatedData) (st : LogState)
    (reinitOk mutexOk writeOk : Bool) : List AggregatedData × LogState :=
  match q with
  | [] => (q, st)
  | _ :: rest => (rest, loggingStep st reinitOk mutexOk writeOk)

/-- C7 counterexample: with the card nominally fine, a mutex-acquisition
timeout increments the write-error counter but does NOT mark storage
unavailable — `sd_card_ok` stays `true`, contrary to the claim that
every failure kind marks storage unavailable. -/
theorem storage_failure_counterexample :
    (loggingStep ⟨true, true, 0, 0, 0⟩ true false true).sd_write_errors = 1 ∧
    (loggingStep ⟨true, true, 0, 0, 0⟩ true false true).sd_card_ok = true := by
  decide

/-- C7 amended: for a record received while the card is initialized, the
record is dequeued and never re-queued (at-most-once persistence) for
every failure kind; both failure kinds increment the write-error
counter; a WRITE failure marks storage unavailable, but a MUTEX timeout
leaves the availability flag unchanged. -/
theorem storage_failure_handling (st : LogState) (d : AggregatedData)
    (rest : List AggregatedData) (reinitOk mutexOk writeOk : Bool)
    (hinit : st.sdCardInitialized = true) :
    (loggingIteration (d :: rest) st reinitOk mutexOk writeOk).1 = rest ∧
    (mutexOk = false →
      (loggingStep st reinitOk mutexOk writeOk).sd_write_errors =
          st.sd_write_errors + 1 ∧
        (loggingStep st reinitOk mutexOk writeOk).sd_card_ok = st.sd_card_ok) ∧
    (mutexOk = true → writeOk = false →
      (loggingStep st reinitOk mutexOk writeOk).sd_write_errors =
          st.sd_write_errors + 1 ∧
        (loggingStep st reinitOk mutexOk writeOk).sd_card_ok = false) := by
  refine ⟨rfl, ?_, ?_⟩
  · intro hm
    simp [loggingStep, hinit, hm]
  · intro hm hw
    simp [loggingStep, hinit, hm, hw]

/-- Witness for the amended C7 at a concrete state and record. -/
theorem storage_failure_handling_witness :
    (loggingIteration [⟨0, 0, 0, none, none, none, none, none, none, none,
        none, none, none, none, none⟩] ⟨true, true, 0, 0, 0⟩ true false true).1 = [] ∧
    (false = false →
      (loggingStep ⟨true, true, 0, 0, 0⟩ true false true).sd_write_errors = 0 + 1 ∧
        (loggingStep ⟨true, true, 0, 0, 0⟩ true false true).sd_card_ok = true) ∧
    (false = true → true = false →
      (loggingStep ⟨true, true, 0, 0, 0⟩ true false true).sd_write_errors = 0 + 1 ∧
        (loggingStep ⟨true, true, 0, 0, 0⟩ true false true).sd_card_ok = false) :=
  storage_failure_handling ⟨true, true, 0, 0, 0⟩
    ⟨0, 0, 0, none, none, none, none, none, none, none, none, none, none,
      none, none⟩ [] true false true rfl

/-! ### Claim C8: time-sync plausibility and round-trip verification
(`updateRTCFromNTP`, TimeSync.cpp lines 96-137) -/

/-- `updateRTCFromNTP`: `rtcAvailable` is "the RTC sensor pointer is
non-null and the device was found" (the null check, and `setTime`'s own
`rtcFound` guard); `now` is the system time just set from NTP;
`rtcReadBack` is what `getUnixTime()` returns after the write.  Result:
(hardware clock written, attempt reported successful). -/
def updateRTCFromNTP (rtcAvailable : Bool) (now rtcReadBack : ℤ) : Bool × Bool :=
  if ¬rtcAvailable then (false, false)
  else if now < 1577836800 then (false, false)
  else if |rtcReadBack - now| > 2 then (true, false)
  else (true, true)

/-- C8: a fetched time before the 2020-01-01 epoch threshold fails the
attempt without writing the hardware clock; and whenever the clock WAS
written but the read-back differs from the intended time by more than
the 2-second tolerance, the attempt is reported as a failure. -/
theorem timesync_validation (rtcAvailable : Bool) (now rtcReadBack : ℤ) :
    (now < 1577836800 →
      updateRTCFromNTP rtcAvailable now rtcReadBack = (false, false)) ∧
    ((updateRTCFromNTP rtcAvailable now rtcReadBack).1 = true →
      |rtcReadBack - now| > 2 →
      (updateRTCFromNTP rtcAvailable now rtcReadBack).2 = false) := by
  constructor
  · intro hlt
    unfold updateRTCFromNTP
    by_cases ha : rtcAvailable
    · simp [ha, hlt]
    · simp [ha]
  · intro _ hdiff
    unfold updateRTCFromNTP
    by_cases ha : rtcAvailable
    · by_cases hlt : now < 1577836800
      · simp [ha, hlt]
      · simp [ha, hlt, hdiff]
    · simp [ha]

/-- Witness for C8: an implausible fetched time (100 s after the 1970
epoch) and, separately, a 10-second round-trip discrepancy at a
plausible time. -/
theorem timesync_validation_witness :
    ((100 : ℤ) < 1577836800 →
      updateRTCFromNTP true 100 100 = (false, false)) ∧
    ((updateRTCFromNTP true 100 100).1 = true →
      |(100 : ℤ) - 100| > 2 →
      (updateRTCFromNTP true 100 100).2 = false) :=
  timesync_validation true 100 100

/-! ### Decimal formatting (`printf("%.Nf", ...)` / Arduino `String(x, N)`)

Both the CSV writer and the JSON serializers print the float channel
values with a fixed decimal count.  Over the `Option ℚ` model of floats
this is: NaN (`none`) prints as the literal `nan` (C `printf` and
Arduino `String(NAN, n)` both produce `nan`); a finite value is rounded
to `prec` decimal digits and printed with a minus sign, an unpadded
integer part, and (when `prec > 0`) a point followed by exactly `prec`
digits. -/

/-- Decimal digits of a natural number, most significant first (the
digit characters `printf("%d"/"%ld")` emits). -/
def natDigits : ℕ → List Char
  | n =>
    if n < 10 then [Nat.digitChar n]
    else natDigits (n / 10) ++ [Nat.digitChar (n % 10)]
  termination_by n => n
  decreasing_by exact Nat.div_lt_self (by omega) (by omega)

/-- Exactly `p` decimal digits of `m`, zero-padded on the left (the
fractional part of `%.pf`). -/
def fracDigits : ℕ → ℕ → List Char
  | 0, _ => []
  | p + 1, m => fracDigits p (m / 10) ++ [Nat.digitChar (m % 10)]

/-- `printf("%.precf", q)` on a finite value: round to `prec` decimals
(round-to-nearest; the tie direction is a modelling choice the claims do
not depend on) and print sign, integer part, point, `prec` fraction
digits (no point at all for `prec = 0`). -/
def fmtSign (scaled : ℤ) : List Char := if scaled < 0 then ['-'] else []

def fmtFixed (prec : ℕ) (q : ℚ) : String :=
  if prec = 0 then
    String.mk (fmtSign (round (q * (10 : ℚ) ^ prec)) ++
      natDigits (round (q * (10 : ℚ) ^ prec)).natAbs)
  else
    String.mk (fmtSign (round (q * (10 : ℚ) ^ prec)) ++
      natDigits ((round (q * (10 : ℚ) ^ prec)).natAbs / 10 ^ prec) ++
      '.' :: fracDigits prec ((round (q * (10 : ℚ) ^ prec)).natAbs % 10 ^ prec))

/-- A float field as printed: NaN prints as the literal `nan`. -/
def fmtFloat (prec : ℕ) : Option ℚ → String
  | none => "nan"
  | some q => fmtFixed prec q

theorem digitChar_isDigit (k : ℕ) (h : k < 10) :
    (Nat.digitChar k).isDigit = true := by
  interval_cases k <;> decide

theorem natDigits_isDigit (n : ℕ) : ∀ c ∈ natDigits n, c.isDigit = true := by
  induction n using Nat.strong_induction_on with
  | _ n ih =>
    intro c hc
    rw [natDigits] at hc
    by_cases h : n < 10
    · rw [if_pos h] at hc
      simp only [List.mem_singleton] at hc
      exact hc ▸ digitChar_isDigit n h
    · rw [if_neg h] at hc
      rcases List.mem_append.mp hc with hc | hc
      · exact ih (n / 10) (Nat.div_lt_self (by omega) (by omega)) c hc
      · simp only [List.mem_singleton] at hc
        exact hc ▸ digitChar_isDigit (n % 10) (Nat.mod_lt _ (by omega))

theorem fracDigits_isDigit (p : ℕ) :
    ∀ (m : ℕ) (c : Char), c ∈ fracDigits p m → c.isDigit = true := by
  induction p with
  | zero => intro m c hc; simp [fracDigits] at hc
  | succ p ih =>
    intro m c hc
    rcases List.mem_append.mp hc with hc | hc
    · exact ih (m / 10) c hc
    · simp only [List.mem_singleton] at hc
      exact hc ▸ digitChar_isDigit (m % 10) (Nat.mod_lt _ (by omega))

theorem fracDigits_length (p : ℕ) : ∀ m : ℕ, (fracDigits p m).length = p := by
  induction p with
  | zero => intro m; rfl
  | succ p ih => intro m; simp [fracDigits, ih]

/-- The characters of `(String.mk l)` are `l`. -/
theorem data_mk (l : List Char) : (String.mk l).data = l := rfl

theorem fmtSign_chars (s : ℤ) : ∀ c ∈ fmtSign s, c = '-' := by
  intro c hc
  unfold fmtSign at hc
  by_cases hs : s < 0
  · rw [if_pos hs] at hc; simpa using hc
  · rw [if_neg hs] at hc; simp at hc

/-- Every character printed for a finite float is a digit, the decimal
point, or a minus sign. -/
theorem fmtFixed_chars (prec : ℕ) (q : ℚ) :
    ∀ c ∈ (fmtFixed prec q).data, c.isDigit = true ∨ c = '.' ∨ c = '-' := by
  intro c hc
  unfold fmtFixed at hc
  by_cases hp : prec = 0
  · rw [if_pos hp, data_mk] at hc
    rcases List.mem_append.mp hc with hc | hc
    · exact Or.inr (Or.inr (fmtSign_chars _ c hc))
    · exact Or.inl (natDigits_isDigit _ c hc)
  · rw [if_neg hp, data_mk] at hc
    rcases List.mem_append.mp hc with hc | hc
    · rcases List.mem_append.mp hc with hc | hc
      · exact Or.inr (Or.inr (fmtSign_chars _ c hc))
      · exact Or.inl (natDigits_isDigit _ c hc)
    · rcases List.mem_cons.mp hc with hc | hc
      · exact Or.inr (Or.inl hc)
      · exact Or.inl (fracDigits_isDigit _ _ c hc)

/-! ### Claim C6: the CSV row (`writeDataToSD`, LoggingTask.cpp
lines 131-189, header from `ensureFileWithHeaders` lines 114-118) -/

/-- Number of `,` characters in a string. -/
def commaCount (s : String) : ℕ := s.data.count ','

/-- The fixed header row written to a fresh file. -/
def csvHeader : String :=
  "timestamp_start,timestamp_end,samples,ds18b20_avg,ds18b20_min,ds18b20_max,sht40_temp_avg,sht40_temp_min,sht40_temp_max,sht40_hum_avg,sht40_hum_min,sht40_hum_max,soil_avg,soil_min,soil_max"

/-- One non-final channel of the data row: NaN statistics print as three
empty fields (`,,,`), otherwise three fixed-precision values each
followed by a comma (the `isnan(avg)` test guards the whole triple). -/
def csvChannel (prec : ℕ) (avg mn mx : Option ℚ) : String :=
  match avg with
  | none => ",,,"
  | some a => fmtFixed prec a ++ "," ++ fmtFloat prec mn ++ "," ++
      fmtFloat prec mx ++ ","

/-- The final (soil-moisture) channel: two commas when NaN, otherwise
three `%.0f` values with separating commas and no trailing comma. -/
def csvSoil (avg mn mx : Option ℚ) : String :=
  match avg with
  | none => ",,"
  | some a => fmtFixed 0 a ++ "," ++ fmtFloat 0 mn ++ "," ++ fmtFloat 0 mx

/-- The data row `writeDataToSD` appends (without the newline):
timestamps and sample count, then the four channels at precisions
2, 2, 1, 0. -/
def csvRow (d : AggregatedData) : String :=
  String.mk (natDigits d.start_timestamp) ++ "," ++
  String.mk (natDigits d.end_timestamp) ++ "," ++
  String.mk (natDigits d.sample_count) ++ "," ++
  csvChannel 2 d.ds18b20_avg d.ds18b20_min d.ds18b20_max ++
  csvChannel 2 d.sht40_temp_avg d.sht40_temp_min d.sht40_temp_max ++
  csvChannel 1 d.sht40_hum_avg d.sht40_hum_min d.sht40_hum_max ++
  csvSoil d.soil_moisture_avg d.soil_moisture_min d.soil_moisture_max

theorem commaCount_append (a b : String) :
    commaCount (a ++ b) = commaCount a + commaCount b := by
  simp [commaCount, String.data_append, List.count_append]

theorem isDigit_ne_comma (c : Char) (h : c.isDigit = true) : c ≠ ',' := by
  rintro rfl
  exact absurd h (by decide)

theorem natDigits_commaCount (n : ℕ) :
    commaCount (String.mk (natDigits n)) = 0 := by
  simp only [commaCount]
  exact List.count_eq_zero.mpr
    (fun hm => isDigit_ne_comma ',' (natDigits_isDigit n ',' hm) rfl)

theorem fmtFixed_commaCount (prec : ℕ) (q : ℚ) :
    commaCount (fmtFixed prec q) = 0 := by
  simp only [commaCount]
  refine List.count_eq_zero.mpr (fun hm => ?_)
  rcases fmtFixed_chars prec q ',' hm with h | h | h
  · exact isDigit_ne_comma ',' h rfl
  · exact absurd h (by decide)
  · exact absurd h (by decide)

theorem fmtFloat_commaCount (prec : ℕ) (o : Option ℚ) :
    commaCount (fmtFloat prec o) = 0 := by
  cases o with
  | none => simp only [fmtFloat]; decide
  | some q => exact fmtFixed_commaCount prec q

theorem csvChannel_commaCount (prec : ℕ) (avg mn mx : Option ℚ) :
    commaCount (csvChannel prec avg mn mx) = 3 := by
  cases avg with
  | none => simp only [csvChannel]; decide
  | some a =>
    simp [csvChannel, commaCount_append, fmtFixed_commaCount,
      fmtFloat_commaCount]
    decide

theorem csvSoil_commaCount (avg mn mx : Option ℚ) :
    commaCount (csvSoil avg mn mx) = 2 := by
  cases avg with
  | none => simp only [csvSoil]; decide
  | some a =>
    simp [csvSoil, commaCount_append, fmtFixed_commaCount,
      fmtFloat_commaCount]
    decide

/-! #### Decimal-place counting -/

/-- The number of characters after the last `.` of a string (the whole
string when it has no point). -/
def decimalsAfterPoint (s : String) : ℕ :=
  (s.data.reverse.takeWhile (fun c => c != '.')).length

theorem takeWhile_append_all (p : Char → Bool) (l l' : List Char)
    (h : ∀ c ∈ l, p c = true) :
    (l ++ l').takeWhile p = l ++ l'.takeWhile p := by
  induction l with
  | nil => simp
  | cons c rest ih =>
    simp [List.takeWhile_cons, h c (List.mem_cons_self c rest),
      ih (fun x hx => h x (List.mem_cons_of_mem c hx))]

/-- A `%.precf` value with `prec > 0` has exactly `prec` characters
after its decimal point. -/
theorem fmtFixed_decimalsAfterPoint (prec : ℕ) (hp : prec ≠ 0) (q : ℚ) :
    decimalsAfterPoint (fmtFixed prec q) = prec := by
  unfold fmtFixed
  rw [if_neg hp]
  unfold decimalsAfterPoint
  rw [data_mk, List.reverse_append, List.reverse_cons, List.append_assoc,
    List.singleton_append]
  have hfrac : ∀ c ∈ (fracDigits prec
      ((round (q * (10 : ℚ) ^ prec)).natAbs % 10 ^ prec)).reverse,
      (c != '.') = true := by
    intro c hc
    have hd := fracDigits_isDigit prec _ c (List.mem_reverse.mp hc)
    have hne : c ≠ '.' := by rintro rfl; exact absurd hd (by decide)
    simpa using hne
  rw [takeWhile_append_all _ _ _ hfrac]
  simp [fracDigits_length]

/-- A `%.0f` value contains no decimal point at all (integer-like). -/
theorem fmtFixed_zero_no_point (q : ℚ) : '.' ∉ (fmtFixed 0 q).data := by
  intro hm
  unfold fmtFixed at hm
  rw [if_pos rfl, data_mk] at hm
  rcases List.mem_append.mp hm with hm | hm
  · exact absurd (fmtSign_chars _ '.' hm) (by decide)
  · exact absurd (natDigits_isDigit _ '.' hm) (by decide)

/-! #### Character classes of a data row: no letter ever appears, so no
literal `nan`/`NaN` text -/

/-- The characters allowed in a CSV data row. -/
def okChar (c : Char) : Prop := c.isDigit = true ∨ c = ',' ∨ c = '.' ∨ c = '-'

theorem okChar_of_fmtFixed (prec : ℕ) (q : ℚ) :
    ∀ c ∈ (fmtFixed prec q).data, okChar c := by
  intro c hc
  rcases fmtFixed_chars prec q c hc with h | h | h
  · exact Or.inl h
  · exact Or.inr (Or.inr (Or.inl h))
  · exact Or.inr (Or.inr (Or.inr h))

theorem mem_data_append {c : Char} (a b : String) (hc : c ∈ (a ++ b).data) :
    c ∈ a.data ∨ c ∈ b.data := by
  rw [String.data_append] at hc
  exact List.mem_append.mp hc

theorem okChar_of_csvChannel (prec : ℕ) (avg mn mx : Option ℚ)
    (h : avg.isSome → mn.isSome ∧ mx.isSome) :
    ∀ c ∈ (csvChannel prec avg mn mx).data, okChar c := by
  intro c hc
  cases avg with
  | none =>
    simp only [csvChannel] at hc
    have : c = ',' := by simpa using hc
    exact Or.inr (Or.inl this)
  | some a =>
    obtain ⟨hmn, hmx⟩ := h (by simp)
    obtain ⟨vmn, hvmn⟩ := Option.isSome_iff_exists.mp hmn
    obtain ⟨vmx, hvmx⟩ := Option.isSome_iff_exists.mp hmx
    subst hvmn hvmx
    simp only [csvChannel, fmtFloat] at hc
    rcases mem_data_append _ _ hc with hc | hc
    · rcases mem_data_append _ _ hc with hc | hc
      · rcases mem_data_append _ _ hc with hc | hc
        · rcases mem_data_append _ _ hc with hc | hc
          · rcases mem_data_append _ _ hc with hc | hc
            · exact okChar_of_fmtFixed _ _ c hc
            · exact Or.inr (Or.inl (by simpa using hc))
          · exact okChar_of_fmtFixed _ _ c hc
        · exact Or.inr (Or.inl (by simpa using hc))
      · exact okChar_of_fmtFixed _ _ c hc
    · exact Or.inr (Or.inl (by simpa using hc))

theorem okChar_of_csvSoil (avg mn mx : Option ℚ)
    (h : avg.isSome → mn.isSome ∧ mx.isSome) :
    ∀ c ∈ (csvSoil avg mn mx).data, okChar c := by
  intro c hc
  cases avg with
  | none =>
    simp only [csvSoil] at hc
    have : c = ',' := by simpa using hc
    exact Or.inr (Or.inl this)
  | some a =>
    obtain ⟨hmn, hmx⟩ := h (by simp)
    obtain ⟨vmn, hvmn⟩ := Option.isSome_iff_exists.mp hmn
    obtain ⟨vmx, hvmx⟩ := Option.isSome_iff_exists.mp hmx
    subst hvmn hvmx
    simp only [csvSoil, fmtFloat] at hc
    rcases mem_data_append _ _ hc with hc | hc
    · rcases mem_data_append _ _ hc with hc | hc
      · rcases mem_data_append _ _ hc with hc | hc
        · rcases mem_data_append _ _ hc with hc | hc
          · exact okChar_of_fmtFixed _ _ c hc
          · exact Or.inr (Or.inl (by simpa using hc))
        · exact okChar_of_fmtFixed _ _ c hc
      · exact Or.inr (Or.inl (by simpa using hc))
    · exact okChar_of_fmtFixed _ _ c hc

/-- C6: for every record written to the CSV file (with the emitted-record
invariant that a channel's min/max are present whenever its avg is): the
row has exactly the header's comma count whether channels have data or
not; every character of the row is a digit, comma, point or minus — in
particular no literal `NaN`/`nan` text ever appears; a NaN channel is
written as empty fields; and the precision is 2 decimal places for the
two temperature channels, 1 for humidity, and 0 (no decimal point,
integer-like) for soil moisture. -/
theorem csv_row_format (d : AggregatedData)
    (h1 : d.ds18b20_avg.isSome → d.ds18b20_min.isSome ∧ d.ds18b20_max.isSome)
    (h2 : d.sht40_temp_avg.isSome → d.sht40_temp_min.isSome ∧ d.sht40_temp_max.isSome)
    (h3 : d.sht40_hum_avg.isSome → d.sht40_hum_min.isSome ∧ d.sht40_hum_max.isSome)
    (h4 : d.soil_moisture_avg.isSome →
      d.soil_moisture_min.isSome ∧ d.soil_moisture_max.isSome) :
    commaCount (csvRow d) = commaCount csvHeader ∧
    (∀ c ∈ (csvRow d).data, okChar c) ∧
    (d.ds18b20_avg = none →
      csvChannel 2 d.ds18b20_avg d.ds18b20_min d.ds18b20_max = ",,,") ∧
    (d.sht40_temp_avg = none →
      csvChannel 2 d.sht40_temp_avg d.sht40_temp_min d.sht40_temp_max = ",,,") ∧
    (d.sht40_hum_avg = none →
      csvChannel 1 d.sht40_hum_avg d.sht40_hum_min d.sht40_hum_max = ",,,") ∧
    (d.soil_moisture_avg = none →
      csvSoil d.soil_moisture_avg d.soil_moisture_min d.soil_moisture_max = ",,") ∧
    (∀ q : ℚ, decimalsAfterPoint (fmtFixed 2 q) = 2) ∧
    (∀ q : ℚ, decimalsAfterPoint (fmtFixed 1 q) = 1) ∧
    (∀ q : ℚ, '.' ∉ (fmtFixed 0 q).data) := by
  refine ⟨?_, ?_, ?_, ?_, ?_, ?_, ?_, ?_, ?_⟩
  · simp only [csvRow, commaCount_append, natDigits_commaCount,
      csvChannel_commaCount, csvSoil_commaCount]
    decide
  · intro c hc
    simp only [csvRow, String.data_append, List.mem_append, data_mk] at hc
    rcases hc with ((((((((hc | hc) | hc) | hc) | hc) | hc) | hc) | hc) | hc) | hc
    · exact Or.inl (natDigits_isDigit _ c hc)
    · exact Or.inr (Or.inl (by simpa using hc))
    · exact Or.inl (natDigits_isDigit _ c hc)
    · exact Or.inr (Or.inl (by simpa using hc))
    · exact Or.inl (natDigits_isDigit _ c hc)
    · exact Or.inr (Or.inl (by simpa using hc))
    · exact okChar_of_csvChannel 2 _ _ _ h1 c hc
    · exact okChar_of_csvChannel 2 _ _ _ h2 c hc
    · exact okChar_of_csvChannel 1 _ _ _ h3 c hc
    · exact okChar_of_csvSoil _ _ _ h4 c hc
  · intro h; rw [h]; rfl
  · intro h; rw [h]; rfl
  · intro h; rw [h]; rfl
  · intro h; rw [h]; rfl
  · exact fun q => fmtFixed_decimalsAfterPoint 2 (by decide) q
  · exact fun q => fmtFixed_decimalsAfterPoint 1 (by decide) q
  · exact fun q => fmtFixed_zero_no_point q

/-- A concrete silent-channel record for the C6 witness. -/
def csvDemoRecord : AggregatedData :=
  ⟨1700000000, 1700000060, 60, none, none, none, none, none, none,
    none, none, none, none, none, none⟩

/-- Witness for C6 at a record with all channels NaN. -/
theorem csv_row_format_witness :
    commaCount (csvRow csvDemoRecord) = commaCount csvHeader ∧
    (∀ c ∈ (csvRow csvDemoRecord).data, okChar c) ∧
    (csvDemoRecord.ds18b20_avg = none →
      csvChannel 2 csvDemoRecord.ds18b20_avg csvDemoRecord.ds18b20_min
        csvDemoRecord.ds18b20_max = ",,,") ∧
    (csvDemoRecord.sht40_temp_avg = none →
      csvChannel 2 csvDemoRecord.sht40_temp_avg csvDemoRecord.sht40_temp_min
        csvDemoRecord.sht40_temp_max = ",,,") ∧
    (csvDemoRecord.sht40_hum_avg = none →
      csvChannel 1 csvDemoRecord.sht40_hum_avg csvDemoRecord.sht40_hum_min
        csvDemoRecord.sht40_hum_max = ",,,") ∧
    (csvDemoRecord.soil_moisture_avg = none →
      csvSoil csvDemoRecord.soil_moisture_avg csvDemoRecord.soil_moisture_min
        csvDemoRecord.soil_moisture_max = ",,") ∧
    (∀ q : ℚ, decimalsAfterPoint (fmtFixed 2 q) = 2) ∧
    (∀ q : ℚ, decimalsAfterPoint (fmtFixed 1 q) = 1) ∧
    (∀ q : ℚ, '.' ∉ (fmtFixed 0 q).data) :=
  csv_row_format csvDemoRecord (by decide) (by decide) (by decide) (by decide)

/-! ### Claim C10: the MQTT JSON serializers and NaN channels

`publishDataToMQTT` (CloudTask.cpp lines 111-160) and
`aggregatedDataToJSON` (AggregationTask.cpp lines 210-237) build the
payload with Arduino `String(value, prec)` which, for NaN, produces the
literal text `nan` — unlike the CSV path's empty fields. -/

/-- One channel object of the JSON payload:
`"label":{"avg":…,"min":…,"max":…}`. -/
def jsonChannel (label : String) (prec : ℕ) (avg mn mx : Option ℚ) : String :=
  "\"" ++ label ++ "\":\x7b\"avg\":" ++ fmtFloat prec avg ++
  ",\"min\":" ++ fmtFloat prec mn ++ ",\"max\":" ++ fmtFloat prec mx ++ "\x7d"

/-- The payload `publishDataToMQTT` publishes (device id, plain-number
window bounds and sample count, then the four channels at precisions
2, 2, 1, 0). -/
def publishPayload (deviceId : String) (d : AggregatedData) : String :=
  "\x7b\"device\":\"" ++ deviceId ++ "\",\"start\":" ++
  String.mk (natDigits d.start_timestamp) ++ ",\"end\":" ++
  String.mk (natDigits d.end_timestamp) ++ ",\"samples\":" ++
  String.mk (natDigits d.sample_count) ++ "," ++
  jsonChannel "ds18b20" 2 d.ds18b20_avg d.ds18b20_min d.ds18b20_max ++ "," ++
  jsonChannel "sht40_temp" 2 d.sht40_temp_avg d.sht40_temp_min d.sht40_temp_max ++ "," ++
  jsonChannel "sht40_humidity" 1 d.sht40_hum_avg d.sht40_hum_min d.sht40_hum_max ++ "," ++
  jsonChannel "soil_moisture" 0 d.soil_moisture_avg d.soil_moisture_min
    d.soil_moisture_max ++ "\x7d"

/-- `aggregatedDataToJSON` (quoted window bounds, labels `sht40_hum` and
`soil`). -/
def aggregatedDataToJSON (d : AggregatedData) : String :=
  "\x7b\"start\":\"" ++ String.mk (natDigits d.start_timestamp) ++
  "\",\"end\":\"" ++ String.mk (natDigits d.end_timestamp) ++
  "\",\"samples\":" ++ String.mk (natDigits d.sample_count) ++ "," ++
  jsonChannel "ds18b20" 2 d.ds18b20_avg d.ds18b20_min d.ds18b20_max ++ "," ++
  jsonChannel "sht40_temp" 2 d.sht40_temp_avg d.sht40_temp_min d.sht40_temp_max ++ "," ++
  jsonChannel "sht40_hum" 1 d.sht40_hum_avg d.sht40_hum_min d.sht40_hum_max ++ "," ++
  jsonChannel "soil" 0 d.soil_moisture_avg d.soil_moisture_min
    d.soil_moisture_max ++ "\x7d"

/-- `needle` occurs as a contiguous substring of `hay`. -/
def strContains (needle hay : String) : Prop :=
  ∃ s t, hay.data = s ++ needle.data ++ t

theorem strContains_self (n : String) : strContains n n :=
  ⟨[], [], by simp⟩

theorem strContains_append_left (n a b : String) (h : strContains n b) :
    strContains n (a ++ b) := by
  obtain ⟨s, t, hst⟩ := h
  exact ⟨a.data ++ s, t, by rw [String.data_append, hst]; simp⟩

theorem strContains_append_right (n a b : String) (h : strContains n a) :
    strContains n (a ++ b) := by
  obtain ⟨s, t, hst⟩ := h
  exact ⟨s, t ++ b.data, by rw [String.data_append, hst]; simp⟩

theorem strContains_nan_jsonChannel (label : String) (prec : ℕ)
    (mn mx : Option ℚ) :
    strContains "nan" (jsonChannel label prec none mn mx) := by
  unfold jsonChannel
  apply strContains_append_right
  apply strContains_append_right
  apply strContains_append_right
  apply strContains_append_right
  apply strContains_append_right
  apply strContains_append_left
  exact strContains_self "nan"

/-- C10: a channel with no data is rendered by the JSON serializers as
the literal text `nan` for `avg`, `min` and `max` (not empty or omitted
fields), and the published payload therefore contains non-numeric `nan`
tokens — shown for the DS18B20 channel with NaN statistics, in both
`publishDataToMQTT`'s payload and `aggregatedDataToJSON`'s output. -/
theorem json_renders_nan (device : String) (d : AggregatedData)
    (h1 : d.ds18b20_avg = none) (h2 : d.ds18b20_min = none)
    (h3 : d.ds18b20_max = none) :
    jsonChannel "ds18b20" 2 d.ds18b20_avg d.ds18b20_min d.ds18b20_max =
      "\"ds18b20\":\x7b\"avg\":nan,\"min\":nan,\"max\":nan\x7d" ∧
    strContains "nan" (publishPayload device d) ∧
    strContains "nan" (aggregatedDataToJSON d) := by
  refine ⟨?_, ?_, ?_⟩
  · rw [h1, h2, h3]; rfl
  · unfold publishPayload
    rw [h1]
    apply strContains_append_right
    apply strContains_append_right
    apply strContains_append_right
    apply strContains_append_right
    apply strContains_append_right
    apply strContains_append_right
    apply strContains_append_right
    apply strContains_append_left
    exact strContains_nan_jsonChannel "ds18b20" 2 _ _
  · unfold aggregatedDataToJSON
    rw [h1]
    apply strContains_append_right
    apply strContains_append_right
    apply strContains_append_right
    apply strContains_append_right
    apply strContains_append_right
    apply strContains_append_right
    apply strContains_append_right
    apply strContains_append_left
    exact strContains_nan_jsonChannel "ds18b20" 2 _ _

/-- Witness for C10 at a concrete all-NaN record. -/
theorem json_renders_nan_witness :
    jsonChannel "ds18b20" 2 csvDemoRecord.ds18b20_avg csvDemoRecord.ds18b20_min
      csvDemoRecord.ds18b20_max =
      "\"ds18b20\":\x7b\"avg\":nan,\"min\":nan,\"max\":nan\x7d" ∧
    strContains "nan" (publishPayload "esp32c3_logger" csvDemoRecord) ∧
    strContains "nan" (aggregatedDataToJSON csvDemoRecord) :=
  json_renders_nan "esp32c3_logger" csvDemoRecord rfl rfl rfl

end DataLogger
